import Mathlib

/-!
Shallow embedding of the DePIN simulator's on-chain core:
`NodeRightsNFT.sol` (node-rights mint / upgrade / performance-update /
slashing / reward-estimation state machine, with the ERC721Enumerable
owner-index override `_update`) and `Participation.sol` together with its
base `NodeRegistry.sol` (register / recordUptime / claimReward /
stakeToNode).

Machine integers are modelled as `Nat`; Solidity's checked arithmetic
(underflow / division-by-zero reverts) is made explicit with `Except` /
`Option`, and each external function returns `Except Err (State × List
Event)` mirroring the revert-or-commit semantics of the EVM: an `error`
result leaves the pre-state untouched and emits nothing.
-/

namespace DePIN

/-- Addresses are modelled as `Nat`; `0` is the zero address (unminted /
unregistered marker, never a real caller). -/
abbrev Address := Nat

/-- Pointwise map update, modelling a Solidity `mapping` write. -/
def upd {α : Type} (f : Nat → α) (k : Nat) (v : α) : Nat → α :=
  fun i => if i = k then v else f i

/-- `NodeRightsNFT.NodeType`. -/
inductive NodeType
  | STORAGE
  | COMPUTE
  | BANDWIDTH
deriving DecidableEq

/-- `NodeRightsNFT.NodeStatus`. -/
inductive NodeStatus
  | ACTIVE
  | SLASHED_MINOR
  | SLASHED_MAJOR
  | TERMINATED
deriving DecidableEq

/-- `NodeRightsNFT.NodeRights` struct. -/
structure NodeRights where
  nodeType : NodeType
  stakedETH : Nat
  stakedDPN : Nat
  mintedAt : Nat
  lastRewardClaim : Nat
  status : NodeStatus
  totalUptime : Nat
  performanceScore : Nat
  metadata : String
  isUpgraded : Bool
deriving DecidableEq

/-- `NodeRightsNFT.NodeTypeConfig` struct. -/
structure NodeTypeConfig where
  minETHStake : Nat
  minDPNStake : Nat
  baseRewardRate : Nat
  maxCapacity : Nat
  isActive : Bool
deriving DecidableEq

/-- The zero-valued `NodeRights` record that a Solidity mapping returns for a
never-written key (enum defaults are the first member: STORAGE / ACTIVE). -/
def emptyNode : NodeRights :=
  { nodeType := .STORAGE, stakedETH := 0, stakedDPN := 0, mintedAt := 0,
    lastRewardClaim := 0, status := .ACTIVE, totalUptime := 0,
    performanceScore := 0, metadata := "", isUpgraded := false }

/-- `PERFORMANCE_DECIMALS` constant (100.00% = 10000). -/
def PERFORMANCE_DECIMALS : Nat := 10000

/-- `NodeRightsNFT._min`. -/
def solMin (a b : Nat) : Nat := if a < b then a else b

/-- `NodeRightsNFT._evaluateNodeStatus`: the status ladder, a pure function of
the reported score. -/
def evaluateNodeStatus (performanceScore : Nat) : NodeStatus :=
  if 9000 ≤ performanceScore then .ACTIVE
  else if 5000 ≤ performanceScore then .SLASHED_MINOR
  else if 2000 ≤ performanceScore then .SLASHED_MAJOR
  else .TERMINATED

/-- Penalty arm of `NodeRightsNFT._applySlashing` (the `if`/`else if` chain on
the new status). -/
def slashPenalty (stakedDPN : Nat) : NodeStatus → Nat
  | .SLASHED_MINOR => stakedDPN * 5 / 100
  | .SLASHED_MAJOR => stakedDPN * 15 / 100
  | .TERMINATED => stakedDPN
  | .ACTIVE => 0

/-- Reason strings of `NodeRightsNFT._applySlashing`. -/
def slashReason : NodeStatus → String
  | .SLASHED_MINOR => "Low performance (50-90%)"
  | .SLASHED_MAJOR => "Poor performance (20-50%)"
  | .TERMINATED => "Critical failure (<20%)"
  | .ACTIVE => ""

/-- `NodeRightsNFT._applySlashing` on a single record: sets the new status,
computes the tier penalty, and deducts it from `stakedDPN` when positive.
Returns the updated record and the penalty (for the `NodeSlashed` event). -/
def applySlashing (node : NodeRights) (newStatus : NodeStatus) : NodeRights × Nat :=
  let node1 := { node with status := newStatus }
  let penalty := slashPenalty node1.stakedDPN newStatus
  (if 0 < penalty then { node1 with stakedDPN := node1.stakedDPN - penalty } else node1,
   penalty)

/-- `NodeRightsNFT._calculatePendingRewards` on one record and its type
config, at host time `now` (`block.timestamp`).  `none` models an arithmetic
revert (subtraction underflow or division by zero in the EVM). -/
def calculatePendingRewards (node : NodeRights) (config : NodeTypeConfig)
    (now : Nat) : Option Nat :=
  if node.status ≠ NodeStatus.ACTIVE then some 0
  else if now < node.lastRewardClaim then none
  else
    let timeElapsed := now - node.lastRewardClaim
    let baseReward := config.baseRewardRate * timeElapsed
    let adjustedReward := baseReward * node.performanceScore / PERFORMANCE_DECIMALS
    if node.stakedETH < config.minETHStake then none
    else if config.minETHStake = 0 then none
    else
      let stakingMultiplier := PERFORMANCE_DECIMALS +
        (node.stakedETH - config.minETHStake) * 1000 / config.minETHStake
      some (adjustedReward * stakingMultiplier / PERFORMANCE_DECIMALS)

/-- The swap-and-pop removal loop in `NodeRightsNFT._update`: find the first
occurrence of `x`, overwrite it with the list's last element, drop the last
element; a list without `x` is returned unchanged. -/
def swapRemove : List Nat → Nat → List Nat
  | [], _ => []
  | a :: rest, x =>
    if a = x then
      match rest.getLast? with
      | none => []
      | some b => b :: rest.dropLast
    else a :: swapRemove rest x

/-- Full storage of a deployed `NodeRightsNFT` (the fields the claims touch;
`nodeCapacityUsed` and the two auxiliary contract addresses are carried for
completeness).  `tokenOwner` is the ERC721 `_owners` mapping, `0` = unminted. -/
structure NFTState where
  tokenIdCounter : Nat
  nodeRights : Nat → NodeRights
  nodeTypeConfigs : NodeType → NodeTypeConfig
  ownerNodes : Address → List Nat
  nodeCapacityUsed : Nat → Nat
  crossChainBridges : Nat → String
  lastPerformanceUpdate : Nat → Nat
  tokenOwner : Nat → Address
  contractOwner : Address
  participationContract : Address
  dpnTokenContract : Address

/-- Config-map update (keyed by `NodeType`). -/
def updCfg (f : NodeType → NodeTypeConfig) (k : NodeType) (v : NodeTypeConfig) :
    NodeType → NodeTypeConfig :=
  fun t => if t = k then v else f t

/-- `NodeRightsNFT._setupNodeTypes`: the constructor-installed per-type
configuration (1 ether = 10^18 wei). -/
def setupNodeTypes : NodeType → NodeTypeConfig
  | .STORAGE =>
    { minETHStake := 1000000000000000000, minDPNStake := 1000000000000000000000,
      baseRewardRate := 11574074074074, maxCapacity := 1000, isActive := true }
  | .COMPUTE =>
    { minETHStake := 2000000000000000000, minDPNStake := 2000000000000000000000,
      baseRewardRate := 34722222222222, maxCapacity := 500, isActive := true }
  | .BANDWIDTH =>
    { minETHStake := 500000000000000000, minDPNStake := 500000000000000000000,
      baseRewardRate := 17361111111111, maxCapacity := 2000, isActive := true }

/-- State right after the `NodeRightsNFT` constructor runs with `deployer` as
`msg.sender` (Ownable owner). -/
def initNFTState (deployer : Address) : NFTState :=
  { tokenIdCounter := 0
    nodeRights := fun _ => emptyNode
    nodeTypeConfigs := setupNodeTypes
    ownerNodes := fun _ => []
    nodeCapacityUsed := fun _ => 0
    crossChainBridges := fun _ => ""
    lastPerformanceUpdate := fun _ => 0
    tokenOwner := fun _ => 0
    contractOwner := deployer
    participationContract := 0
    dpnTokenContract := 0 }

/-- Revert reasons of the two contracts, named as in the specification's
error taxonomy; the ERC721-internal reverts and the EVM arithmetic panic get
their own constructors. -/
inductive Err
  | InactiveNodeType
  | InsufficientNativeStake
  | InsufficientTokenStake
  | NotFound
  | NotOwner
  | NodeNotActive
  | Unauthorized
  | AlreadyTerminated
  | InvalidAmount
  | InvalidReceiver
  | InvalidSender
  | IncorrectOwner
  | Panic
deriving DecidableEq

/-- Events of both contracts (fields exactly as declared in the sources). -/
inductive Event
  | NodeRightsMinted (tokenId : Nat) (owner : Address) (nodeType : NodeType)
      (ethStaked dpnStaked : Nat)
  | NodeUpgraded (tokenId additionalETH additionalDPN newPerformanceScore : Nat)
  | PerformanceUpdated (tokenId newScore uptimeAdded : Nat) (status : NodeStatus)
  | NodeSlashed (tokenId : Nat) (newStatus : NodeStatus) (penaltyAmount : Nat)
      (reason : String)
  | CrossChainBridge (tokenId : Nat) (destinationChain : String) (operator : Address)
  | NodeRegistered (nodeId : Nat) (owner : Address) (timestamp : Nat)
  | UptimeRecorded (nodeId minutesUp timestamp : Nat)
  | RewardClaimed (nodeId : Nat) (owner : Address) (amount timestamp : Nat)
  | StakeUpdated (nodeId : Nat) (staker : Address) (amount timestamp : Nat)
deriving DecidableEq

/-- `NodeRightsNFT.mintNodeRights` called by `sender` with `value` wei at host
time `now`.  The trailing two checks model OpenZeppelin `_safeMint` (rejects
the zero receiver and an already-minted id). -/
def mintNodeRights (s : NFTState) (sender : Address) (value now : Nat)
    (nodeType : NodeType) (dpnStakeAmount : Nat) (metadata : String) :
    Except Err (NFTState × List Event) :=
  let config := s.nodeTypeConfigs nodeType
  if ¬config.isActive then .error .InactiveNodeType
  else if value < config.minETHStake then .error .InsufficientNativeStake
  else if dpnStakeAmount < config.minDPNStake then .error .InsufficientTokenStake
  else
    let tokenId := s.tokenIdCounter
    if sender = 0 then .error .InvalidReceiver
    else if s.tokenOwner tokenId ≠ 0 then .error .InvalidSender
    else
      .ok ({ s with
              tokenIdCounter := tokenId + 1
              nodeRights := upd s.nodeRights tokenId
                { nodeType := nodeType, stakedETH := value, stakedDPN := dpnStakeAmount,
                  mintedAt := now, lastRewardClaim := now, status := .ACTIVE,
                  totalUptime := 0, performanceScore := PERFORMANCE_DECIMALS,
                  metadata := metadata, isUpgraded := false }
              ownerNodes := upd s.ownerNodes sender (s.ownerNodes sender ++ [tokenId])
              tokenOwner := upd s.tokenOwner tokenId sender },
            [Event.NodeRightsMinted tokenId sender nodeType value dpnStakeAmount])

/-- `NodeRightsNFT.upgradeNode` called by `sender` with `value` wei.  The
boost divides by the already-updated `stakedETH` (`node.stakedETH += msg.value`
happens first in the source); a zero denominator is an EVM panic. -/
def upgradeNode (s : NFTState) (sender : Address) (value tokenId additionalDPN : Nat) :
    Except Err (NFTState × List Event) :=
  if s.tokenOwner tokenId = 0 then .error .NotFound
  else if s.tokenOwner tokenId ≠ sender then .error .NotOwner
  else if (s.nodeRights tokenId).status ≠ NodeStatus.ACTIVE then .error .NodeNotActive
  else
    let node := s.nodeRights tokenId
    let newStakedETH := node.stakedETH + value
    if newStakedETH = 0 then .error .Panic
    else
      let performanceBoost := value * 100 / newStakedETH
      let newScore := solMin (node.performanceScore + performanceBoost)
        (PERFORMANCE_DECIMALS * 12 / 10)
      .ok ({ s with
              nodeRights := upd s.nodeRights tokenId
                ({ node with stakedETH := newStakedETH,
                             stakedDPN := node.stakedDPN + additionalDPN,
                             isUpgraded := true, performanceScore := newScore }) },
            [Event.NodeUpgraded tokenId value additionalDPN newScore])

/-- `NodeRightsNFT.updatePerformance` called by `sender` at host time `now`:
authorized for the Ownable owner or the registered participation contract;
rejects terminated nodes; overwrites score, accumulates uptime, then slashes
iff the re-evaluated status differs from the stored one. -/
def updatePerformance (s : NFTState) (sender : Address)
    (now tokenId uptimeSeconds performanceScore : Nat) :
    Except Err (NFTState × List Event) :=
  if s.tokenOwner tokenId = 0 then .error .NotFound
  else if ¬(sender = s.contractOwner ∨ sender = s.participationContract) then
    .error .Unauthorized
  else
    let node := s.nodeRights tokenId
    if node.status = NodeStatus.TERMINATED then .error .AlreadyTerminated
    else
      let node1 := { node with totalUptime := node.totalUptime + uptimeSeconds,
                               performanceScore := performanceScore }
      let newStatus := evaluateNodeStatus performanceScore
      if newStatus ≠ node1.status then
        let slashed := applySlashing node1 newStatus
        .ok ({ s with nodeRights := upd s.nodeRights tokenId slashed.1,
                      lastPerformanceUpdate := upd s.lastPerformanceUpdate tokenId now },
              [Event.NodeSlashed tokenId newStatus slashed.2 (slashReason newStatus),
               Event.PerformanceUpdated tokenId performanceScore uptimeSeconds
                 slashed.1.status])
      else
        .ok ({ s with nodeRights := upd s.nodeRights tokenId node1,
                      lastPerformanceUpdate := upd s.lastPerformanceUpdate tokenId now },
              [Event.PerformanceUpdated tokenId performanceScore uptimeSeconds
                 node1.status])

/-- `NodeRightsNFT.bridgeToChain`. -/
def bridgeToChain (s : NFTState) (sender : Address) (tokenId : Nat)
    (destinationChain : String) : Except Err (NFTState × List Event) :=
  if s.tokenOwner tokenId = 0 then .error .NotFound
  else if s.tokenOwner tokenId ≠ sender then .error .NotOwner
  else
    .ok ({ s with crossChainBridges := upd s.crossChainBridges tokenId destinationChain },
          [Event.CrossChainBridge tokenId destinationChain sender])

/-- Modelled from the spec: ERC721 `transferFrom` (OpenZeppelin library code,
not in the repository's sources) composed with the repository's `_update`
override.  The spec asks for "standard non-fungible, single-owner,
transferable-asset semantics": the receiver must be nonzero, the token must
exist, the caller must be entitled to move it (operator/approval delegation
is omitted — the caller must be the current owner; delegation changes only
who may call, never the state written), and `from` must be the current
owner.  The override then swap-removes the id from the previous owner's
index and appends it to the receiver's, exactly when the owner changes. -/
def transferFrom (s : NFTState) (sender fromA toA : Address) (tokenId : Nat) :
    Except Err (NFTState × List Event) :=
  if toA = 0 then .error .InvalidReceiver
  else if s.tokenOwner tokenId = 0 then .error .NotFound
  else if s.tokenOwner tokenId ≠ sender then .error .NotOwner
  else if s.tokenOwner tokenId ≠ fromA then .error .IncorrectOwner
  else
    let prev := s.tokenOwner tokenId
    if prev ≠ toA then
      .ok ({ s with
              tokenOwner := upd s.tokenOwner tokenId toA,
              ownerNodes := fun a =>
                if a = prev then swapRemove (s.ownerNodes prev) tokenId
                else if a = toA then s.ownerNodes toA ++ [tokenId]
                else s.ownerNodes a },
            [])
    else .ok ({ s with tokenOwner := upd s.tokenOwner tokenId toA }, [])

/-- `NodeRightsNFT.updateNodeTypeConfig` (onlyOwner); `maxCapacity` is left
untouched, as in the source. -/
def updateNodeTypeConfig (s : NFTState) (sender : Address) (nodeType : NodeType)
    (minETHStake minDPNStake baseRewardRate : Nat) (isActive : Bool) :
    Except Err (NFTState × List Event) :=
  if sender ≠ s.contractOwner then .error .Unauthorized
  else
    let config := s.nodeTypeConfigs nodeType
    .ok ({ s with
            nodeTypeConfigs := updCfg s.nodeTypeConfigs nodeType
              ({ config with minETHStake := minETHStake, minDPNStake := minDPNStake,
                             baseRewardRate := baseRewardRate, isActive := isActive }) },
          [])

/-- `NodeRightsNFT.setParticipationContract` (onlyOwner). -/
def setParticipationContract (s : NFTState) (sender addr : Address) :
    Except Err (NFTState × List Event) :=
  if sender ≠ s.contractOwner then .error .Unauthorized
  else .ok ({ s with participationContract := addr }, [])

/-- `NodeRightsNFT.getNodeDetails`'s `estimatedRewards` component: reverts
(`none`) on an unminted id, otherwise `_calculatePendingRewards`. -/
def estimatedRewards (s : NFTState) (tokenId now : Nat) : Option Nat :=
  if s.tokenOwner tokenId = 0 then none
  else calculatePendingRewards (s.nodeRights tokenId)
    (s.nodeTypeConfigs (s.nodeRights tokenId).nodeType) now

/-- One external call to `NodeRightsNFT`, with its caller, attached value and
host timestamp where the source reads them. -/
inductive NFTOp
  | mint (sender value now : Nat) (nodeType : NodeType) (dpnStakeAmount : Nat)
      (metadata : String)
  | upgrade (sender value tokenId additionalDPN : Nat)
  | updatePerf (sender now tokenId uptimeSeconds performanceScore : Nat)
  | bridge (sender tokenId : Nat) (destinationChain : String)
  | transfer (sender fromA toA tokenId : Nat)
  | setConfig (sender : Nat) (nodeType : NodeType) (minETHStake minDPNStake baseRewardRate : Nat)
      (isActive : Bool)
  | setParticipation (sender addr : Nat)

/-- Dispatch one call. -/
def execNFT : NFTOp → NFTState → Except Err (NFTState × List Event)
  | .mint sender value now nodeType dpnStakeAmount metadata, s =>
      mintNodeRights s sender value now nodeType dpnStakeAmount metadata
  | .upgrade sender value tokenId additionalDPN, s =>
      upgradeNode s sender value tokenId additionalDPN
  | .updatePerf sender now tokenId uptimeSeconds performanceScore, s =>
      updatePerformance s sender now tokenId uptimeSeconds performanceScore
  | .bridge sender tokenId destinationChain, s =>
      bridgeToChain s sender tokenId destinationChain
  | .transfer sender fromA toA tokenId, s =>
      transferFrom s sender fromA toA tokenId
  | .setConfig sender nodeType minETHStake minDPNStake baseRewardRate isActive, s =>
      updateNodeTypeConfig s sender nodeType minETHStake minDPNStake baseRewardRate isActive
  | .setParticipation sender addr, s =>
      setParticipationContract s sender addr

/-- EVM commit-or-revert: a reverted call leaves the storage untouched. -/
def stepNFT (op : NFTOp) (s : NFTState) : NFTState :=
  match execNFT op s with
  | .ok (s', _) => s'
  | .error _ => s

/-- Events of one call; a reverted call emits nothing. -/
def nftEvents (op : NFTOp) (s : NFTState) : List Event :=
  match execNFT op s with
  | .ok (_, evs) => evs
  | .error _ => []

/-- Run a sequence of calls. -/
def stepsNFT (ops : List NFTOp) (s : NFTState) : NFTState :=
  ops.foldl (fun t op => stepNFT op t) s

/-- States reachable from deployment through calls satisfying `P`. -/
inductive ReachableP (P : NFTOp → Prop) : NFTState → Prop
  | init (deployer : Address) : ReachableP P (initNFTState deployer)
  | step (s : NFTState) (op : NFTOp) (h : ReachableP P s) (hp : P op) :
      ReachableP P (stepNFT op s)

/-- States reachable through arbitrary calls. -/
abbrev ReachableNFT : NFTState → Prop := ReachableP fun _ => True

/-- Call sequences whose performance reports stay at or below the 12000
ceiling (other calls unrestricted). -/
def scoreBounded : NFTOp → Prop
  | .updatePerf _ _ _ _ performanceScore => performanceScore ≤ 12000
  | _ => True

/-! ## Participation ledger (`NodeRegistry.sol` + `Participation.sol`) -/

/-- `NodeRegistry.Node`. -/
structure RegNode where
  owner : Address
  metadata : String
  registeredAt : Nat
deriving DecidableEq

/-- `Participation.Stats`. -/
structure Stats where
  uptime : Nat
  lastUpdate : Nat
  earned : Nat
deriving DecidableEq

/-- Storage of a deployed `Participation` (which inherits `NodeRegistry`). -/
structure PartState where
  nodes : Nat → RegNode
  nextId : Nat
  stats : Nat → Stats
  nodeStakes : Nat → Nat

/-- Freshly deployed `Participation` contract. -/
def initPartState : PartState :=
  { nodes := fun _ => { owner := 0, metadata := "", registeredAt := 0 }
    nextId := 0
    stats := fun _ => { uptime := 0, lastUpdate := 0, earned := 0 }
    nodeStakes := fun _ => 0 }

/-- One external call to `Participation`. -/
inductive PartOp
  | register (sender now : Nat) (metadata : String)
  | recordUp (sender now nodeId minutesUp : Nat)
  | claim (sender now nodeId : Nat)
  | stake (sender now nodeId value : Nat)

/-- Dispatch one call: `registerNode` always succeeds; `recordUptime` has no
precondition at all (no existence or caller check); `claimReward` requires
the registry owner; `stakeToNode` only requires a positive value. -/
def execPart : PartOp → PartState → Except Err (PartState × List Event)
  | .register sender now metadata, s =>
      .ok ({ s with
              nodes := upd s.nodes s.nextId
                ({ owner := sender, metadata := metadata, registeredAt := now }),
              nextId := s.nextId + 1 },
            [Event.NodeRegistered s.nextId sender now])
  | .recordUp _sender now nodeId minutesUp, s =>
      let st := s.stats nodeId
      .ok ({ s with
              stats := upd s.stats nodeId
                { uptime := st.uptime + minutesUp, lastUpdate := now,
                  earned := st.earned + minutesUp } },
            [Event.UptimeRecorded nodeId minutesUp now])
  | .claim sender now nodeId, s =>
      if (s.nodes nodeId).owner ≠ sender then .error .Unauthorized
      else
        let amount := (s.stats nodeId).earned
        .ok ({ s with stats := upd s.stats nodeId { s.stats nodeId with earned := 0 } },
              [Event.RewardClaimed nodeId sender amount now])
  | .stake sender now nodeId value, s =>
      if value = 0 then .error .InvalidAmount
      else
        .ok ({ s with nodeStakes := upd s.nodeStakes nodeId (s.nodeStakes nodeId + value) },
              [Event.StakeUpdated nodeId sender value now])

/-- Commit-or-revert for `Participation`. -/
def stepPart (op : PartOp) (s : PartState) : PartState :=
  match execPart op s with
  | .ok (s', _) => s'
  | .error _ => s

/-- Events of one `Participation` call; a reverted call emits nothing. -/
def partEvents (op : PartOp) (s : PartState) : List Event :=
  match execPart op s with
  | .ok (_, evs) => evs
  | .error _ => []

/-! ## Derived definitions used by the verification -/

/-- The record written back by a successful `upgradeNode` (stakes increased,
upgraded flag set, boosted-and-capped score). -/
def upgradedNode (node : NodeRights) (value additionalDPN : Nat) : NodeRights :=
  { node with
      stakedETH := node.stakedETH + value,
      stakedDPN := node.stakedDPN + additionalDPN,
      isUpgraded := true,
      performanceScore := solMin (node.performanceScore + value * 100 / (node.stakedETH + value))
        (PERFORMANCE_DECIMALS * 12 / 10) }

/-- The specified preconditions of each `NodeRightsNFT` call (the `require`
chain each external function runs before touching storage). -/
def nftPre : NFTOp → NFTState → Prop
  | .mint sender value _now nodeType dpnStakeAmount _m, s =>
      (s.nodeTypeConfigs nodeType).isActive = true ∧
      (s.nodeTypeConfigs nodeType).minETHStake ≤ value ∧
      (s.nodeTypeConfigs nodeType).minDPNStake ≤ dpnStakeAmount ∧
      sender ≠ 0 ∧ s.tokenOwner s.tokenIdCounter = 0
  | .upgrade sender _value tokenId _a, s =>
      s.tokenOwner tokenId ≠ 0 ∧ s.tokenOwner tokenId = sender ∧
      (s.nodeRights tokenId).status = .ACTIVE
  | .updatePerf sender _now tokenId _u _p, s =>
      s.tokenOwner tokenId ≠ 0 ∧
      (sender = s.contractOwner ∨ sender = s.participationContract) ∧
      (s.nodeRights tokenId).status ≠ .TERMINATED
  | .bridge sender tokenId _d, s =>
      s.tokenOwner tokenId ≠ 0 ∧ s.tokenOwner tokenId = sender
  | .transfer sender fromA toA tokenId, s =>
      toA ≠ 0 ∧ s.tokenOwner tokenId ≠ 0 ∧ s.tokenOwner tokenId = sender ∧
      s.tokenOwner tokenId = fromA
  | .setConfig sender _ _ _ _ _, s => sender = s.contractOwner
  | .setParticipation sender _, s => sender = s.contractOwner

/-- The specified preconditions of each `Participation` call. -/
def partPre : PartOp → PartState → Prop
  | .register _ _ _, _ => True
  | .recordUp _ _ _ _, _ => True
  | .claim sender _ nodeId, s => (s.nodes nodeId).owner = sender
  | .stake _ _ _ v, _ => 0 < v

/-- Global storage invariant of `NodeRightsNFT`: ids at or above the counter
are unminted and hold the zero record, minted ids have a nonzero owner, the
owner index holds every minted id exactly once (in its owner's list, nowhere
else), and a terminated node has no token stake left. -/
def GInv (s : NFTState) : Prop :=
  (∀ id, s.tokenIdCounter ≤ id → s.tokenOwner id = 0) ∧
  (∀ id, id < s.tokenIdCounter → s.tokenOwner id ≠ 0) ∧
  (∀ id, s.tokenIdCounter ≤ id → s.nodeRights id = emptyNode) ∧
  (∀ a id, (s.ownerNodes a).count id = if s.tokenOwner id = a ∧ a ≠ 0 then 1 else 0) ∧
  (∀ id, (s.nodeRights id).status = .TERMINATED → (s.nodeRights id).stakedDPN = 0)

/-- The fresh record written by a successful mint. -/
def mintRecord (nodeType : NodeType) (value dpn now : Nat) (md : String) : NodeRights :=
  { nodeType := nodeType, stakedETH := value, stakedDPN := dpn, mintedAt := now,
    lastRewardClaim := now, status := .ACTIVE, totalUptime := 0,
    performanceScore := PERFORMANCE_DECIMALS, metadata := md, isUpgraded := false }

/-- The record written back by a successful performance update, before any
slashing. -/
def perfNode (n : NodeRights) (up score : Nat) : NodeRights :=
  { n with totalUptime := n.totalUptime + up, performanceScore := score }

/-- The reward estimate exactly as the specification words it: base reward
rate times seconds since last claim, scaled by `performanceScore / 10000`,
then multiplied by the staking multiplier
`1 + max(0, stakedNative − minNativeStake) / minNativeStake` — an exact
rational multiplier, numerator `min + (staked − min)`, denominator `min`
(Nat subtraction supplies the `max(0,·)`). -/
def claimedPendingRewards (node : NodeRights) (config : NodeTypeConfig) (now : Nat) : Nat :=
  if node.status ≠ NodeStatus.ACTIVE then 0
  else
    (config.baseRewardRate * (now - node.lastRewardClaim) * node.performanceScore
        / PERFORMANCE_DECIMALS)
      * (config.minETHStake + (node.stakedETH - config.minETHStake)) / config.minETHStake

/-- The staking multiplier the code actually applies, worded as the amended
claim: basis points `10000 + 1000·(stakedNative − minNativeStake) / minNativeStake`
(that is, `1 + Δ/(10·min)` rather than the spec's `1 + Δ/min`), with
truncating division at each step. -/
def amendedPendingRewards (node : NodeRights) (config : NodeTypeConfig) (now : Nat) : Nat :=
  if node.status ≠ NodeStatus.ACTIVE then 0
  else
    (config.baseRewardRate * (now - node.lastRewardClaim) * node.performanceScore
        / PERFORMANCE_DECIMALS)
      * (PERFORMANCE_DECIMALS
          + (node.stakedETH - config.minETHStake) * 1000 / config.minETHStake)
      / PERFORMANCE_DECIMALS

/-- A deployment (owner 1) followed by one STORAGE mint by address 2 staking
2 ETH (twice the minimum) and 1000 DPN, at time 0. -/
def c1State : NFTState :=
  stepNFT (.mint 2 2000000000000000000 0 .STORAGE 1000000000000000000000 "")
    (initNFTState 1)

/-- Deployment, one STORAGE mint, then an authorized performance report of
13000 (above the 12000 ceiling) which the engine stores unclamped. -/
def c2State : NFTState :=
  stepNFT (.updatePerf 1 5 0 0 13000)
    (stepNFT (.mint 2 1000000000000000000 0 .STORAGE 1000000000000000000000 "")
      (initNFTState 1))

/-- Deployment, then a STORAGE mint by address 2 staking 1.5 ETH and
1000 DPN at time 0 (the spec's Scenario B setup). -/
def c3State : NFTState :=
  stepNFT (.mint 2 1500000000000000000 0 .STORAGE 1000000000000000000000 "")
    (initNFTState 1)

/-- The c3 state driven to TERMINATED by an authorized report of 1000. -/
def c4State : NFTState := stepNFT (.updatePerf 1 10 0 0 1000) c3State

/-- The c1 state after transferring token 0 from address 2 to address 3. -/
def c8State : NFTState := stepNFT (.transfer 2 2 3 0) c1State

/-- Registry with one node (owner 7, "Node A") that has reported 15 minutes
of uptime. -/
def c9Part : PartState :=
  stepPart (.recordUp 5 1 0 15) (stepPart (.register 7 0 "Node A") initPartState)

/-! ## Theorems -/

theorem upd_same {α : Type} (f : Nat → α) (k : Nat) (v : α) : upd f k v k = v := by
  simp [upd]

theorem upd_other {α : Type} (f : Nat → α) (k : Nat) (v : α) {i : Nat} (h : i ≠ k) :
    upd f k v i = f i := by
  simp [upd, h]

theorem solMin_eq_min (a b : Nat) : solMin a b = min a b := by
  rw [solMin, Nat.min_def]; split <;> split <;> omega


theorem getLast?_decomp : ∀ (l : List Nat) (b : Nat), l.getLast? = some b →
    l = l.dropLast ++ [b]
  | [], b, h => by simp at h
  | [a], b, h => by
      simp_all
  | a :: c :: t, b, h => by
      rw [List.getLast?_cons_cons] at h
      have ih := getLast?_decomp (c :: t) b h
      calc a :: c :: t = a :: ((c :: t).dropLast ++ [b]) := by rw [← ih]
        _ = (a :: c :: t).dropLast ++ [b] := by simp

theorem count_swapRemove (l : List Nat) (x y : Nat) :
    (swapRemove l x).count y = l.count y - (if x = y then 1 else 0) := by
  induction l with
  | nil => simp [swapRemove]
  | cons a rest ih =>
    by_cases hax : a = x
    · subst hax
      cases hrest : rest.getLast? with
      | none =>
        have : rest = [] := by
          cases rest with
          | nil => rfl
          | cons c t => simp [List.getLast?_eq_none_iff] at hrest
        subst this
        simp [swapRemove, List.count_cons]
      | some b =>
        have hdec := getLast?_decomp rest b hrest
        have hc : rest.count y = (rest.dropLast).count y + (if b = y then 1 else 0) := by
          conv_lhs => rw [hdec]
          rw [List.count_append, List.count_cons, List.count_nil]
          simp [beq_iff_eq]
        simp only [swapRemove, if_pos rfl, hrest, if_true]
        rw [List.count_cons, List.count_cons, hc]
        simp only [beq_iff_eq]
        clear hdec hrest ih hc
        by_cases h1 : b = y <;> by_cases h2 : a = y <;> simp [h1, h2]
    · simp only [swapRemove, if_neg hax]
      rw [List.count_cons, ih, List.count_cons]
      simp only [beq_iff_eq]
      by_cases h1 : a = y <;> by_cases h2 : x = y
      · exact absurd (h1.trans h2.symm) hax
      all_goals simp [h1, h2]

theorem applySlashing_status (n : NodeRights) (st : NodeStatus) :
    (applySlashing n st).1.status = st := by
  simp only [applySlashing]
  split <;> rfl

theorem applySlashing_stakedETH (n : NodeRights) (st : NodeStatus) :
    (applySlashing n st).1.stakedETH = n.stakedETH := by
  simp only [applySlashing]
  split <;> rfl

theorem applySlashing_terminated_dpn (n : NodeRights) :
    (applySlashing n .TERMINATED).1.stakedDPN = 0 := by
  simp only [applySlashing, slashPenalty]
  split <;> simp_all

theorem GInv_init (deployer : Address) : GInv (initNFTState deployer) := by
  refine ⟨fun id h => rfl, fun id h => absurd h (Nat.not_lt_zero id), fun id h => rfl,
    fun a id => ?_, fun id h => by simp [initNFTState, emptyNode] at h⟩
  have hno : ¬((0 : Nat) = a ∧ a ≠ 0) := by rintro ⟨he, hne⟩; exact hne he.symm
  simp [initNFTState, hno]

theorem mint_ok_char {s : NFTState} {sender value now : Nat} {nodeType : NodeType}
    {dpn : Nat} {md : String} {r : NFTState × List Event}
    (h : execNFT (.mint sender value now nodeType dpn md) s = .ok r) :
    sender ≠ 0 ∧ s.tokenOwner s.tokenIdCounter = 0 ∧
    r.1.tokenIdCounter = s.tokenIdCounter + 1 ∧
    r.1.nodeRights = upd s.nodeRights s.tokenIdCounter (mintRecord nodeType value dpn now md) ∧
    r.1.ownerNodes = upd s.ownerNodes sender (s.ownerNodes sender ++ [s.tokenIdCounter]) ∧
    r.1.tokenOwner = upd s.tokenOwner s.tokenIdCounter sender := by
  simp only [execNFT, mintNodeRights] at h
  repeat' split at h
  any_goals exact Except.noConfusion h
  all_goals rw [Except.ok.injEq] at h
  all_goals subst h
  all_goals simp_all [mintRecord]

theorem updatePerf_ok_char {s : NFTState} {sender now tokenId up score : Nat}
    {r : NFTState × List Event}
    (h : execNFT (.updatePerf sender now tokenId up score) s = .ok r) :
    s.tokenOwner tokenId ≠ 0 ∧ (s.nodeRights tokenId).status ≠ .TERMINATED ∧
    r.1.tokenIdCounter = s.tokenIdCounter ∧
    r.1.tokenOwner = s.tokenOwner ∧
    r.1.ownerNodes = s.ownerNodes ∧
    ((evaluateNodeStatus score ≠ (s.nodeRights tokenId).status ∧
        r.1.nodeRights = upd s.nodeRights tokenId
          (applySlashing (perfNode (s.nodeRights tokenId) up score)
            (evaluateNodeStatus score)).1) ∨
     (evaluateNodeStatus score = (s.nodeRights tokenId).status ∧
        r.1.nodeRights = upd s.nodeRights tokenId (perfNode (s.nodeRights tokenId) up score))) := by
  simp only [execNFT, updatePerformance] at h
  repeat' split at h
  any_goals exact Except.noConfusion h
  all_goals rw [Except.ok.injEq] at h
  all_goals subst h
  all_goals simp_all [perfNode]

theorem upgrade_ok_char {s : NFTState} {sender value tokenId addDPN : Nat}
    {r : NFTState × List Event}
    (h : execNFT (.upgrade sender value tokenId addDPN) s = .ok r) :
    s.tokenOwner tokenId ≠ 0 ∧ (s.nodeRights tokenId).status = .ACTIVE ∧
    r.1.tokenIdCounter = s.tokenIdCounter ∧
    r.1.tokenOwner = s.tokenOwner ∧
    r.1.ownerNodes = s.ownerNodes ∧
    r.1.nodeRights = upd s.nodeRights tokenId (upgradedNode (s.nodeRights tokenId) value addDPN) := by
  simp only [execNFT, upgradeNode] at h
  repeat' split at h
  any_goals exact Except.noConfusion h
  all_goals rw [Except.ok.injEq] at h
  all_goals subst h
  all_goals simp_all [upgradedNode]

theorem transfer_ok_char {s : NFTState} {sender fromA toA tokenId : Nat}
    {r : NFTState × List Event}
    (h : execNFT (.transfer sender fromA toA tokenId) s = .ok r) :
    toA ≠ 0 ∧ s.tokenOwner tokenId ≠ 0 ∧
    r.1.tokenIdCounter = s.tokenIdCounter ∧
    r.1.nodeRights = s.nodeRights ∧
    r.1.tokenOwner = upd s.tokenOwner tokenId toA ∧
    ((s.tokenOwner tokenId ≠ toA ∧
        r.1.ownerNodes = fun a =>
          if a = s.tokenOwner tokenId then swapRemove (s.ownerNodes (s.tokenOwner tokenId)) tokenId
          else if a = toA then s.ownerNodes toA ++ [tokenId]
          else s.ownerNodes a) ∨
     (s.tokenOwner tokenId = toA ∧ r.1.ownerNodes = s.ownerNodes)) := by
  simp only [execNFT, transferFrom] at h
  repeat' split at h
  any_goals exact Except.noConfusion h
  all_goals rw [Except.ok.injEq] at h
  all_goals subst h
  all_goals simp_all

theorem count_singleton_eq (c id : Nat) : ([c] : List Nat).count id = if c = id then 1 else 0 := by
  by_cases h : c = id
  · simp [h]
  · rw [if_neg h, List.count_eq_zero]
    simp only [List.mem_singleton]
    exact fun he => h he.symm

theorem applySlashing_score (n : NodeRights) (st : NodeStatus) :
    (applySlashing n st).1.performanceScore = n.performanceScore := by
  simp only [applySlashing]
  split <;> rfl

theorem bridge_ok_char {s : NFTState} {sender tokenId : Nat} {dest : String}
    {r : NFTState × List Event}
    (h : execNFT (.bridge sender tokenId dest) s = .ok r) :
    r.1.tokenIdCounter = s.tokenIdCounter ∧ r.1.nodeRights = s.nodeRights ∧
    r.1.ownerNodes = s.ownerNodes ∧ r.1.tokenOwner = s.tokenOwner := by
  simp only [execNFT, bridgeToChain] at h
  repeat' split at h
  any_goals exact Except.noConfusion h
  all_goals rw [Except.ok.injEq] at h
  all_goals subst h
  all_goals simp_all

theorem setConfig_ok_char {s : NFTState} {sender : Nat} {nodeType : NodeType}
    {a b c : Nat} {fl : Bool} {r : NFTState × List Event}
    (h : execNFT (.setConfig sender nodeType a b c fl) s = .ok r) :
    r.1.tokenIdCounter = s.tokenIdCounter ∧ r.1.nodeRights = s.nodeRights ∧
    r.1.ownerNodes = s.ownerNodes ∧ r.1.tokenOwner = s.tokenOwner := by
  simp only [execNFT, updateNodeTypeConfig] at h
  repeat' split at h
  any_goals exact Except.noConfusion h
  all_goals rw [Except.ok.injEq] at h
  all_goals subst h
  all_goals simp_all

theorem setParticipation_ok_char {s : NFTState} {sender addr : Nat}
    {r : NFTState × List Event}
    (h : execNFT (.setParticipation sender addr) s = .ok r) :
    r.1.tokenIdCounter = s.tokenIdCounter ∧ r.1.nodeRights = s.nodeRights ∧
    r.1.ownerNodes = s.ownerNodes ∧ r.1.tokenOwner = s.tokenOwner := by
  simp only [execNFT, setParticipationContract] at h
  repeat' split at h
  any_goals exact Except.noConfusion h
  all_goals rw [Except.ok.injEq] at h
  all_goals subst h
  all_goals simp_all

theorem GInv_step (op : NFTOp) (s : NFTState) (hInv : GInv s) : GInv (stepNFT op s) := by
  obtain ⟨h1, h2, h3, h4, h5⟩ := hInv
  cases hx : execNFT op s with
  | error e =>
    simp only [stepNFT, hx]
    exact ⟨h1, h2, h3, h4, h5⟩
  | ok r =>
    have hstep : stepNFT op s = r.1 := by simp [stepNFT, hx]
    rw [hstep]
    cases op with
    | mint sender value now nodeType dpn md =>
      obtain ⟨hs0, ht0, hc, hnr, hon, hto⟩ := mint_ok_char hx
      refine ⟨?_, ?_, ?_, ?_, ?_⟩
      · intro id hid
        rw [hc] at hid
        rw [hto, upd_other _ _ _ (by omega)]
        exact h1 id (by omega)
      · intro id hid
        rw [hc] at hid
        rw [hto]
        by_cases he : id = s.tokenIdCounter
        · subst he; rw [upd_same]; exact hs0
        · rw [upd_other _ _ _ he]; exact h2 id (by omega)
      · intro id hid
        rw [hc] at hid
        rw [hnr, upd_other _ _ _ (by omega)]
        exact h3 id (by omega)
      · intro w id
        rw [hon, hto]
        by_cases hw : w = sender
        · subst hw
          rw [upd_same, List.count_append, count_singleton_eq, h4 w id]
          by_cases hid : id = s.tokenIdCounter
          · subst hid
            rw [if_neg (show ¬(s.tokenOwner s.tokenIdCounter = w ∧ w ≠ 0) from
                  fun hcon => hs0 ((ht0.symm.trans hcon.1).symm)),
                if_pos (show s.tokenIdCounter = s.tokenIdCounter from rfl),
                upd_same,
                if_pos (show w = w ∧ w ≠ 0 from ⟨rfl, hs0⟩)]
          · rw [upd_other _ _ _ hid,
                if_neg (show ¬(s.tokenIdCounter = id) from fun hcon => hid hcon.symm)]
            exact Nat.add_zero _
        · rw [upd_other _ _ _ hw, h4 w id]
          by_cases hid : id = s.tokenIdCounter
          · subst hid
            rw [upd_same,
                if_neg (show ¬(s.tokenOwner s.tokenIdCounter = w ∧ w ≠ 0) from
                  fun hcon => hcon.2 ((ht0.symm.trans hcon.1).symm)),
                if_neg (show ¬(sender = w ∧ w ≠ 0) from fun hcon => hw hcon.1.symm)]
          · rw [upd_other _ _ _ hid]
      · intro id
        rw [hnr]
        by_cases hid : id = s.tokenIdCounter
        · subst hid
          rw [upd_same]
          intro hT
          simp [mintRecord] at hT
        · rw [upd_other _ _ _ hid]
          exact h5 id
    | upgrade sender value tokenId addDPN =>
      obtain ⟨hto0, hact, hc, hto, hon, hnr⟩ := upgrade_ok_char hx
      have hlt : tokenId < s.tokenIdCounter := by
        by_contra hge
        exact hto0 (h1 tokenId (by omega))
      refine ⟨?_, ?_, ?_, ?_, ?_⟩
      · intro id hid; rw [hc] at hid; rw [hto]; exact h1 id hid
      · intro id hid; rw [hc] at hid; rw [hto]; exact h2 id hid
      · intro id hid
        rw [hc] at hid
        rw [hnr, upd_other _ _ _ (by omega)]
        exact h3 id hid
      · intro a id; rw [hon, hto]; exact h4 a id
      · intro id
        rw [hnr]
        by_cases hid : id = tokenId
        · subst hid
          rw [upd_same]
          intro hT
          exact absurd (show (s.nodeRights id).status = .TERMINATED from hT)
            (by rw [hact]; intro hcon; exact NodeStatus.noConfusion hcon)
        · rw [upd_other _ _ _ hid]
          exact h5 id
    | updatePerf sender now tokenId up score =>
      obtain ⟨hto0, hterm0, hc, hto, hon, hbr⟩ := updatePerf_ok_char hx
      have hlt : tokenId < s.tokenIdCounter := by
        by_contra hge
        exact hto0 (h1 tokenId (by omega))
      refine ⟨?_, ?_, ?_, ?_, ?_⟩
      · intro id hid; rw [hc] at hid; rw [hto]; exact h1 id hid
      · intro id hid; rw [hc] at hid; rw [hto]; exact h2 id hid
      · intro id hid
        rw [hc] at hid
        rcases hbr with ⟨_, hnr⟩ | ⟨_, hnr⟩ <;>
          (rw [hnr, upd_other _ _ _ (by omega)]; exact h3 id hid)
      · intro a id; rw [hon, hto]; exact h4 a id
      · rcases hbr with ⟨hne, hnr⟩ | ⟨heq, hnr⟩
        · intro id
          rw [hnr]
          by_cases hid : id = tokenId
          · subst hid
            rw [upd_same]
            intro hT
            have hTst : evaluateNodeStatus score = .TERMINATED :=
              (applySlashing_status (perfNode (s.nodeRights id) up score)
                (evaluateNodeStatus score)).symm.trans hT
            rw [hTst]
            exact applySlashing_terminated_dpn _
          · rw [upd_other _ _ _ hid]
            exact h5 id
        · intro id
          rw [hnr]
          by_cases hid : id = tokenId
          · subst hid
            rw [upd_same]
            intro hT
            exact absurd (show (s.nodeRights id).status = .TERMINATED from hT) hterm0
          · rw [upd_other _ _ _ hid]
            exact h5 id
    | bridge sender tokenId dest =>
      obtain ⟨hc, hnr, hon, hto⟩ := bridge_ok_char hx
      exact ⟨by rw [hc, hto]; exact h1, by rw [hc, hto]; exact h2,
        by rw [hc, hnr]; exact h3, by rw [hon, hto]; exact h4, by rw [hnr]; exact h5⟩
    | transfer sender fromA toA tokenId =>
      obtain ⟨htoA0, hto0, hc, hnr, hto, hbr⟩ := transfer_ok_char hx
      have hlt : tokenId < s.tokenIdCounter := by
        by_contra hge
        exact hto0 (h1 tokenId (by omega))
      refine ⟨?_, ?_, ?_, ?_, ?_⟩
      · intro id hid
        rw [hc] at hid
        rw [hto, upd_other _ _ _ (by omega)]
        exact h1 id hid
      · intro id hid
        rw [hc] at hid
        rw [hto]
        by_cases hid2 : id = tokenId
        · subst hid2; rw [upd_same]; exact htoA0
        · rw [upd_other _ _ _ hid2]; exact h2 id hid
      · intro id hid; rw [hc] at hid; rw [hnr]; exact h3 id hid
      · intro w id
        rw [hto]
        rcases hbr with ⟨hneq, hon⟩ | ⟨heq, hon⟩
        · simp only [hon]
          by_cases hw1 : w = s.tokenOwner tokenId
          · rw [if_pos hw1, count_swapRemove, h4 (s.tokenOwner tokenId) id]
            by_cases hid : id = tokenId
            · subst hid
              rw [if_pos (show s.tokenOwner id = s.tokenOwner id
                    ∧ s.tokenOwner id ≠ 0 from ⟨rfl, hto0⟩),
                  if_pos (show id = id from rfl),
                  upd_same,
                  if_neg (show ¬(toA = w ∧ w ≠ 0) from
                    fun hcon => hneq ((hcon.1.trans hw1).symm))]
            · rw [upd_other _ _ _ hid,
                  if_neg (show ¬(tokenId = id) from fun hcon => hid hcon.symm),
                  Nat.sub_zero, hw1]
          · rw [if_neg hw1]
            by_cases hw2 : w = toA
            · subst hw2
              rw [if_pos rfl, List.count_append, count_singleton_eq, h4 w id]
              by_cases hid : id = tokenId
              · subst hid
                rw [upd_same,
                    if_neg (show ¬(s.tokenOwner id = w ∧ w ≠ 0) from
                      fun hcon => hneq hcon.1),
                    if_pos (show id = id from rfl),
                    if_pos (show w = w ∧ w ≠ 0 from ⟨rfl, htoA0⟩)]
              · rw [upd_other _ _ _ hid,
                    if_neg (show ¬(tokenId = id) from fun hcon => hid hcon.symm)]
                exact Nat.add_zero _
            · rw [if_neg hw2, h4 w id]
              by_cases hid : id = tokenId
              · subst hid
                rw [upd_same,
                    if_neg (show ¬(s.tokenOwner id = w ∧ w ≠ 0) from
                      fun hcon => hw1 hcon.1.symm),
                    if_neg (show ¬(toA = w ∧ w ≠ 0) from fun hcon => hw2 hcon.1.symm)]
              · rw [upd_other _ _ _ hid]
        · rw [hon, h4 w id]
          by_cases hid : id = tokenId
          · subst hid
            rw [upd_same, heq]
          · rw [upd_other _ _ _ hid]
      · intro id; rw [hnr]; exact h5 id
    | setConfig sender nodeType a b c fl =>
      obtain ⟨hc, hnr, hon, hto⟩ := setConfig_ok_char hx
      exact ⟨by rw [hc, hto]; exact h1, by rw [hc, hto]; exact h2,
        by rw [hc, hnr]; exact h3, by rw [hon, hto]; exact h4, by rw [hnr]; exact h5⟩
    | setParticipation sender addr =>
      obtain ⟨hc, hnr, hon, hto⟩ := setParticipation_ok_char hx
      exact ⟨by rw [hc, hto]; exact h1, by rw [hc, hto]; exact h2,
        by rw [hc, hnr]; exact h3, by rw [hon, hto]; exact h4, by rw [hnr]; exact h5⟩

theorem GInv_reachableP {P : NFTOp → Prop} (s : NFTState) (h : ReachableP P s) : GInv s := by
  induction h with
  | init d => exact GInv_init d
  | step s' op hr hp ih => exact GInv_step op s' ih

theorem score_bound_reachable (s : NFTState) (h : ReachableP scoreBounded s) :
    ∀ id, (s.nodeRights id).performanceScore ≤ 12000 := by
  induction h with
  | init d => intro id; simp [initNFTState, emptyNode]
  | step s' op hr hp ih =>
    intro id
    cases hx : execNFT op s' with
    | error e => simp only [stepNFT, hx]; exact ih id
    | ok r =>
      have hstep : stepNFT op s' = r.1 := by simp [stepNFT, hx]
      rw [hstep]
      cases op with
      | mint sender value now nodeType dpn md =>
        obtain ⟨_, _, _, hnr, _, _⟩ := mint_ok_char hx
        rw [hnr]
        by_cases hid : id = s'.tokenIdCounter
        · subst hid; rw [upd_same]; simp [mintRecord, PERFORMANCE_DECIMALS]
        · rw [upd_other _ _ _ hid]; exact ih id
      | upgrade sender value tokenId addDPN =>
        obtain ⟨_, _, _, _, _, hnr⟩ := upgrade_ok_char hx
        rw [hnr]
        by_cases hid : id = tokenId
        · subst hid
          rw [upd_same]
          simp only [upgradedNode, solMin_eq_min]
          exact le_trans (Nat.min_le_right _ _) (by norm_num [PERFORMANCE_DECIMALS])
        · rw [upd_other _ _ _ hid]; exact ih id
      | updatePerf sender now tokenId up score =>
        obtain ⟨_, _, _, _, _, hbr⟩ := updatePerf_ok_char hx
        have hsc : score ≤ 12000 := hp
        rcases hbr with ⟨_, hnr⟩ | ⟨_, hnr⟩
        · rw [hnr]
          by_cases hid : id = tokenId
          · subst hid
            rw [upd_same, applySlashing_score]
            simpa [perfNode] using hsc
          · rw [upd_other _ _ _ hid]; exact ih id
        · rw [hnr]
          by_cases hid : id = tokenId
          · subst hid
            rw [upd_same]
            simpa [perfNode] using hsc
          · rw [upd_other _ _ _ hid]; exact ih id
      | bridge sender tokenId dest =>
        obtain ⟨_, hnr, _, _⟩ := bridge_ok_char hx
        rw [hnr]; exact ih id
      | transfer sender fromA toA tokenId =>
        obtain ⟨_, _, _, hnr, _, _⟩ := transfer_ok_char hx
        rw [hnr]; exact ih id
      | setConfig sender nodeType a b c fl =>
        obtain ⟨_, hnr, _, _⟩ := setConfig_ok_char hx
        rw [hnr]; exact ih id
      | setParticipation sender addr =>
        obtain ⟨_, hnr, _, _⟩ := setParticipation_ok_char hx
        rw [hnr]; exact ih id

theorem status_terminated_persist (op : NFTOp) (s : NFTState) (hInv : GInv s) (id : Nat)
    (h : (s.nodeRights id).status = .TERMINATED) :
    ((stepNFT op s).nodeRights id).status = .TERMINATED := by
  obtain ⟨h1, h2, h3, h4, h5⟩ := hInv
  cases hx : execNFT op s with
  | error e => simp only [stepNFT, hx]; exact h
  | ok r =>
    have hstep : stepNFT op s = r.1 := by simp [stepNFT, hx]
    rw [hstep]
    cases op with
    | mint sender value now nodeType dpn md =>
      obtain ⟨_, ht0, _, hnr, _, _⟩ := mint_ok_char hx
      rw [hnr]
      by_cases hid : id = s.tokenIdCounter
      · subst hid
        rw [h3 s.tokenIdCounter (le_refl _)] at h
        simp [emptyNode] at h
      · rw [upd_other _ _ _ hid]; exact h
    | upgrade sender value tokenId addDPN =>
      obtain ⟨_, hact, _, _, _, hnr⟩ := upgrade_ok_char hx
      rw [hnr]
      by_cases hid : id = tokenId
      · subst hid
        rw [hact] at h
        exact absurd h (by simp)
      · rw [upd_other _ _ _ hid]; exact h
    | updatePerf sender now tokenId up score =>
      obtain ⟨_, hterm0, _, _, _, hbr⟩ := updatePerf_ok_char hx
      by_cases hid : id = tokenId
      · subst hid; exact absurd h hterm0
      · rcases hbr with ⟨_, hnr⟩ | ⟨_, hnr⟩ <;> rw [hnr, upd_other _ _ _ hid] <;> exact h
    | bridge sender tokenId dest =>
      obtain ⟨_, hnr, _, _⟩ := bridge_ok_char hx
      rw [hnr]; exact h
    | transfer sender fromA toA tokenId =>
      obtain ⟨_, _, _, hnr, _, _⟩ := transfer_ok_char hx
      rw [hnr]; exact h
    | setConfig sender nodeType a b c fl =>
      obtain ⟨_, hnr, _, _⟩ := setConfig_ok_char hx
      rw [hnr]; exact h
    | setParticipation sender addr =>
      obtain ⟨_, hnr, _, _⟩ := setParticipation_ok_char hx
      rw [hnr]; exact h

theorem terminated_steps (ops : List NFTOp) (s : NFTState) (hInv : GInv s) (id : Nat)
    (h : (s.nodeRights id).status = .TERMINATED) :
    GInv (stepsNFT ops s) ∧ ((stepsNFT ops s).nodeRights id).status = .TERMINATED := by
  induction ops generalizing s with
  | nil => exact ⟨hInv, h⟩
  | cons op rest ih =>
    simp only [stepsNFT, List.foldl_cons] at *
    exact ih (stepNFT op s) (GInv_step op s hInv) (status_terminated_persist op s hInv id h)

/-- Claim C5: the status evaluated on a performance update is a pure
function of the score with inclusive lower bounds — ≥9000 ACTIVE,
5000–8999 SLASHED_MINOR, 2000–4999 SLASHED_MAJOR, <2000 TERMINATED — so the
thresholds 9000, 5000 and 2000 map to the better tier. -/
theorem c5_status_thresholds :
    (∀ score : Nat, 9000 ≤ score → evaluateNodeStatus score = .ACTIVE) ∧
    (∀ score : Nat, 5000 ≤ score → score ≤ 8999 → evaluateNodeStatus score = .SLASHED_MINOR) ∧
    (∀ score : Nat, 2000 ≤ score → score ≤ 4999 → evaluateNodeStatus score = .SLASHED_MAJOR) ∧
    (∀ score : Nat, score < 2000 → evaluateNodeStatus score = .TERMINATED) := by
  refine ⟨fun score h => ?_, fun score h1 h2 => ?_, fun score h1 h2 => ?_, fun score h => ?_⟩
  · simp [evaluateNodeStatus, h]
  · have h3 : ¬ 9000 ≤ score := by omega
    simp [evaluateNodeStatus, h1, h3]
  · have h3 : ¬ 9000 ≤ score := by omega
    have h4 : ¬ 5000 ≤ score := by omega
    simp [evaluateNodeStatus, h1, h3, h4]
  · have h3 : ¬ 9000 ≤ score := by omega
    have h4 : ¬ 5000 ≤ score := by omega
    have h5 : ¬ 2000 ≤ score := by omega
    simp [evaluateNodeStatus, h3, h4, h5]

/-- Witness for C5 at the three thresholds and just below the lowest. -/
theorem c5_status_thresholds_witness :
    evaluateNodeStatus 9000 = .ACTIVE ∧ evaluateNodeStatus 5000 = .SLASHED_MINOR ∧
    evaluateNodeStatus 2000 = .SLASHED_MAJOR ∧ evaluateNodeStatus 1999 = .TERMINATED :=
  ⟨c5_status_thresholds.1 9000 (by decide),
   c5_status_thresholds.2.1 5000 (by decide) (by decide),
   c5_status_thresholds.2.2.1 2000 (by decide) (by decide),
   c5_status_thresholds.2.2.2 1999 (by decide)⟩

/-- Claim C9: `claimReward` reverts with Unauthorized unless the caller is
the node's registered owner; an owner's call emits the current
earnedUnclaimed and zeroes it, so an immediately following owner claim
emits exactly zero. -/
theorem c9_claimReward_spec (ps : PartState) (sender now now2 nodeId : Nat) :
    ((ps.nodes nodeId).owner ≠ sender →
        execPart (.claim sender now nodeId) ps = .error .Unauthorized) ∧
    ((ps.nodes nodeId).owner = sender →
        partEvents (.claim sender now nodeId) ps
            = [Event.RewardClaimed nodeId sender ((ps.stats nodeId).earned) now] ∧
        ((stepPart (.claim sender now nodeId) ps).stats nodeId).earned = 0 ∧
        partEvents (.claim sender now2 nodeId) (stepPart (.claim sender now nodeId) ps)
            = [Event.RewardClaimed nodeId sender 0 now2]) := by
  constructor
  · intro h; simp [execPart, h]
  · intro h
    refine ⟨?_, ?_, ?_⟩ <;>
      simp [execPart, partEvents, stepPart, h, upd_same, upd]

/-- Claim C10: `recordUptime` succeeds for every caller and every node id —
including ids never assigned by `registerNode` — lazily accumulating
zero-initialised stats, and `stakeToNode` with a positive attached value
likewise succeeds for any caller on a nonexistent node. -/
theorem c10_open_participation (ps : PartState) (sender sender2 now now2 nodeId m v : Nat) :
    (∃ r, execPart (.recordUp sender now nodeId m) ps = .ok r) ∧
    ((stepPart (.recordUp sender now nodeId m) ps).stats nodeId).uptime
        = (ps.stats nodeId).uptime + m ∧
    ((stepPart (.recordUp sender now nodeId m) ps).stats nodeId).earned
        = (ps.stats nodeId).earned + m ∧
    ((stepPart (.recordUp sender now nodeId m) ps).stats nodeId).lastUpdate = now ∧
    (0 < v →
      (∃ r, execPart (.stake sender2 now2 nodeId v) ps = .ok r) ∧
      (stepPart (.stake sender2 now2 nodeId v) ps).nodeStakes nodeId
          = ps.nodeStakes nodeId + v) := by
  refine ⟨⟨_, rfl⟩, ?_, ?_, ?_, fun hv => ?_⟩
  · simp [stepPart, execPart, upd_same]
  · simp [stepPart, execPart, upd_same]
  · simp [stepPart, execPart, upd_same]
  · have hv' : v ≠ 0 := Nat.pos_iff_ne_zero.mp hv
    have hst : execPart (.stake sender2 now2 nodeId v) ps =
        .ok ({ ps with nodeStakes := upd ps.nodeStakes nodeId (ps.nodeStakes nodeId + v) },
             [Event.StakeUpdated nodeId sender2 v now2]) := by
      simp [execPart, hv']
    exact ⟨⟨_, hst⟩, by simp [stepPart, hst, upd_same]⟩

/-- Claim C3: whenever `updatePerformance` evaluates a status different from
the stored one it sets that status, deducts exactly floor(5%) of the
pre-penalty token stake for SLASHED_MINOR, floor(15%) for SLASHED_MAJOR and
100% for TERMINATED, and never touches the native stake. -/
theorem c3_slashing_policy (s : NFTState) (sender now tokenId up score : Nat)
    (hMint : s.tokenOwner tokenId ≠ 0)
    (hAuth : sender = s.contractOwner ∨ sender = s.participationContract)
    (hTerm : (s.nodeRights tokenId).status ≠ .TERMINATED)
    (hNe : evaluateNodeStatus score ≠ (s.nodeRights tokenId).status) :
    ((stepNFT (.updatePerf sender now tokenId up score) s).nodeRights tokenId).status
        = evaluateNodeStatus score ∧
    ((stepNFT (.updatePerf sender now tokenId up score) s).nodeRights tokenId).stakedETH
        = (s.nodeRights tokenId).stakedETH ∧
    (evaluateNodeStatus score = .SLASHED_MINOR →
      ((stepNFT (.updatePerf sender now tokenId up score) s).nodeRights tokenId).stakedDPN
        = (s.nodeRights tokenId).stakedDPN - (s.nodeRights tokenId).stakedDPN * 5 / 100) ∧
    (evaluateNodeStatus score = .SLASHED_MAJOR →
      ((stepNFT (.updatePerf sender now tokenId up score) s).nodeRights tokenId).stakedDPN
        = (s.nodeRights tokenId).stakedDPN - (s.nodeRights tokenId).stakedDPN * 15 / 100) ∧
    (evaluateNodeStatus score = .TERMINATED →
      ((stepNFT (.updatePerf sender now tokenId up score) s).nodeRights tokenId).stakedDPN = 0) := by
  have hAuth' : ¬¬(sender = s.contractOwner ∨ sender = s.participationContract) :=
    not_not_intro hAuth
  simp only [stepNFT, execNFT, updatePerformance, if_neg hMint, if_neg hAuth', if_neg hTerm]
  rw [if_pos (by simpa using hNe)]
  simp only [applySlashing, slashPenalty, upd_same]
  cases hEv : evaluateNodeStatus score <;>
    refine ⟨?_, ?_, ?_, ?_, ?_⟩ <;> (try intro h) <;>
    split <;> simp_all

/-- Claim C6: `upgradeNode` fails NotFound on an unminted id, NotOwner for a
non-owner caller, NodeNotActive unless ACTIVE; on success it adds the
attached native value and the additional token stake, sets isUpgraded, and
stores `min(oldScore + (addedNative·100)/newTotalStakedNative, 12000)` with
truncating division. -/
theorem c6_upgradeNode_spec (s : NFTState) (sender value tokenId addDPN : Nat) :
    (s.tokenOwner tokenId = 0 →
        execNFT (.upgrade sender value tokenId addDPN) s = .error .NotFound) ∧
    (s.tokenOwner tokenId ≠ 0 → s.tokenOwner tokenId ≠ sender →
        execNFT (.upgrade sender value tokenId addDPN) s = .error .NotOwner) ∧
    (s.tokenOwner tokenId ≠ 0 → s.tokenOwner tokenId = sender →
        (s.nodeRights tokenId).status ≠ .ACTIVE →
        execNFT (.upgrade sender value tokenId addDPN) s = .error .NodeNotActive) ∧
    (s.tokenOwner tokenId ≠ 0 → s.tokenOwner tokenId = sender →
        (s.nodeRights tokenId).status = .ACTIVE →
        0 < (s.nodeRights tokenId).stakedETH + value →
        (∃ r, execNFT (.upgrade sender value tokenId addDPN) s = .ok r) ∧
        ((stepNFT (.upgrade sender value tokenId addDPN) s).nodeRights tokenId).stakedETH
            = (s.nodeRights tokenId).stakedETH + value ∧
        ((stepNFT (.upgrade sender value tokenId addDPN) s).nodeRights tokenId).stakedDPN
            = (s.nodeRights tokenId).stakedDPN + addDPN ∧
        ((stepNFT (.upgrade sender value tokenId addDPN) s).nodeRights tokenId).isUpgraded
            = true ∧
        ((stepNFT (.upgrade sender value tokenId addDPN) s).nodeRights tokenId).performanceScore
            = min ((s.nodeRights tokenId).performanceScore
                    + value * 100 / ((s.nodeRights tokenId).stakedETH + value)) 12000) := by
  refine ⟨fun h1 => ?_, fun h1 h2 => ?_, fun h1 h2 h3 => ?_, fun h1 h2 h3 h4 => ?_⟩
  · simp [execNFT, upgradeNode, h1]
  · simp [execNFT, upgradeNode, h1, h2]
  · have h0 : sender ≠ 0 := h2 ▸ h1
    simp [execNFT, upgradeNode, h1, h2, h3, h0]
  · have h0 : sender ≠ 0 := h2 ▸ h1
    have h5 : (s.nodeRights tokenId).stakedETH + value ≠ 0 := Nat.pos_iff_ne_zero.mp h4
    have hok : execNFT (.upgrade sender value tokenId addDPN) s = .ok
        ({ s with nodeRights := upd s.nodeRights tokenId (upgradedNode (s.nodeRights tokenId) value addDPN) },
         [Event.NodeUpgraded tokenId value addDPN
           (upgradedNode (s.nodeRights tokenId) value addDPN).performanceScore]) := by
      simp [execNFT, upgradeNode, upgradedNode, h1, h2, h3, h0, h5]
    refine ⟨⟨_, hok⟩, ?_⟩
    simp [stepNFT, hok, upd_same, upgradedNode, solMin_eq_min, PERFORMANCE_DECIMALS]

theorem execNFT_ok_pre {op : NFTOp} {s : NFTState} {r : NFTState × List Event}
    (h : execNFT op s = .ok r) : nftPre op s := by
  cases op <;>
    simp only [execNFT, mintNodeRights, upgradeNode, updatePerformance, bridgeToChain,
      transferFrom, updateNodeTypeConfig, setParticipationContract] at h <;>
    (repeat' split at h) <;>
    (try simp_all [nftPre, Nat.not_lt]) <;>
    tauto

theorem execPart_ok_pre {op : PartOp} {s : PartState} {r : PartState × List Event}
    (h : execPart op s = .ok r) : partPre op s := by
  cases op <;> simp only [execPart] at h <;> (repeat' split at h) <;>
    simp_all [partPre, Nat.pos_iff_ne_zero]

/-- Claim C7: for every operation of either contract, a violated
precondition makes the call revert: the state is left exactly unchanged and
no event is emitted (all-or-nothing rejection). -/
theorem c7_atomic_rejection :
    (∀ (op : NFTOp) (s : NFTState), ¬ nftPre op s →
        (∃ e, execNFT op s = .error e) ∧ stepNFT op s = s ∧ nftEvents op s = []) ∧
    (∀ (op : PartOp) (s : PartState), ¬ partPre op s →
        (∃ e, execPart op s = .error e) ∧ stepPart op s = s ∧ partEvents op s = []) := by
  constructor
  · intro op s hp
    cases hx : execNFT op s with
    | ok r => exact absurd (execNFT_ok_pre hx) hp
    | error e => exact ⟨⟨e, rfl⟩, by simp [stepNFT, hx], by simp [nftEvents, hx]⟩
  · intro op s hp
    cases hx : execPart op s with
    | ok r => exact absurd (execPart_ok_pre hx) hp
    | error e => exact ⟨⟨e, rfl⟩, by simp [stepPart, hx], by simp [partEvents, hx]⟩

/-- Claim C1 counterexample: on a reachable state holding an ACTIVE STORAGE
node staked at twice the minimum, one day after mint the code estimates
1.1× the performance-adjusted base reward (its staking multiplier is
`10000 + Δ·1000/min` basis points), while the claim's multiplier
`1 + Δ/min` would give 2.0×; the two disagree. -/
theorem c1_staking_multiplier_counterexample :
    ReachableNFT c1State ∧
    (c1State.nodeRights 0).status = .ACTIVE ∧
    estimatedRewards c1State 0 86400 = some 1099999999999992960 ∧
    claimedPendingRewards (c1State.nodeRights 0)
        (c1State.nodeTypeConfigs (c1State.nodeRights 0).nodeType) 86400
      = 1999999999999987200 ∧
    (1099999999999992960 : Nat) ≠ 1999999999999987200 := by
  refine ⟨ReachableP.step _ _ (ReachableP.init 1) trivial, ?_, ?_, ?_, ?_⟩ <;> decide

/-- Claim C1 (amended): for an ACTIVE node with a positive configured
minimum and stake at or above it, the read-only estimate equals the base
reward scaled by `performanceScore/10000` and then by the basis-point
staking multiplier `10000 + 1000·(stakedNative − min)/min` over 10000;
non-ACTIVE nodes estimate exactly zero. -/
theorem c1_pending_rewards_amended (node : NodeRights) (config : NodeTypeConfig) (now : Nat)
    (h0 : config.minETHStake ≠ 0) (h1 : config.minETHStake ≤ node.stakedETH)
    (h2 : node.lastRewardClaim ≤ now) :
    calculatePendingRewards node config now = some (amendedPendingRewards node config now) := by
  by_cases hs : node.status = NodeStatus.ACTIVE
  · simp only [calculatePendingRewards, amendedPendingRewards]
    rw [if_neg (show ¬(node.status ≠ NodeStatus.ACTIVE) from not_not_intro hs)]
    rw [if_neg (show ¬(node.status ≠ NodeStatus.ACTIVE) from not_not_intro hs)]
    rw [if_neg (Nat.not_lt.mpr h2), if_neg (Nat.not_lt.mpr h1), if_neg h0]
  · simp [calculatePendingRewards, amendedPendingRewards, hs]

/-- Witness for C1 (amended) at the concrete minted state of the
counterexample. -/
theorem c1_pending_rewards_amended_witness :
    calculatePendingRewards (c1State.nodeRights 0)
        (c1State.nodeTypeConfigs (c1State.nodeRights 0).nodeType) 86400
      = some (amendedPendingRewards (c1State.nodeRights 0)
          (c1State.nodeTypeConfigs (c1State.nodeRights 0).nodeType) 86400) :=
  c1_pending_rewards_amended _ _ _ (by decide) (by decide) (by decide)

/-- Claim C2 counterexample: a reachable state (mint, then an authorized
`updatePerformance` reporting 13000) whose stored performanceScore exceeds
12000 — the engine never clamps the reported score. -/
theorem c2_score_range_counterexample :
    ReachableNFT c2State ∧ 12000 < (c2State.nodeRights 0).performanceScore := by
  refine ⟨ReachableP.step _ (.updatePerf 1 5 0 0 13000)
    (ReachableP.step _ (.mint 2 1000000000000000000 0 .STORAGE 1000000000000000000000 "")
      (ReachableP.init 1) trivial) trivial, ?_⟩
  decide

/-- Claim C2 (amended): over every operation sequence in which each
authorized performance report supplies a score ≤ 12000, every node's stored
performanceScore stays in [0, 12000] (mint writes 10000, the upgrade boost
clamps at 12000, a report is stored verbatim). -/
theorem c2_score_bound_amended (s : NFTState) (h : ReachableP scoreBounded s) (id : Nat) :
    (s.nodeRights id).performanceScore ≤ 12000 :=
  score_bound_reachable s h id

/-- Witness for C2 (amended) after one mint. -/
theorem c2_score_bound_amended_witness :
    (((stepNFT (.mint 2 1000000000000000000 0 .STORAGE 1000000000000000000000 "")
        (initNFTState 1)).nodeRights 0).performanceScore) ≤ 12000 :=
  c2_score_bound_amended _
    (ReachableP.step _ (.mint 2 1000000000000000000 0 .STORAGE 1000000000000000000000 "")
      (ReachableP.init 1) trivial) 0

/-- Witness for C3: Scenario B — an authorized report of 7000 slashes the
minted node to SLASHED_MINOR, deducts exactly 5% of the 1000-DPN stake, and
leaves the 1.5 ETH native stake untouched. -/
theorem c3_slashing_policy_witness :
    ((stepNFT (.updatePerf 1 10 0 1800 7000) c3State).nodeRights 0).status
        = .SLASHED_MINOR ∧
    ((stepNFT (.updatePerf 1 10 0 1800 7000) c3State).nodeRights 0).stakedDPN
        = 950000000000000000000 ∧
    ((stepNFT (.updatePerf 1 10 0 1800 7000) c3State).nodeRights 0).stakedETH
        = 1500000000000000000 := by
  have h := c3_slashing_policy c3State 1 10 0 1800 7000 (by decide) (by decide) (by decide) (by decide)
  refine ⟨?_, ?_, ?_⟩
  · rw [h.1]; decide
  · rw [h.2.2.1 (by decide)]; decide
  · rw [h.2.1]; decide

/-- Claim C4: on every reachable state, a node whose status is TERMINATED has
zero token stake; that stays true (and the status stays TERMINATED) across
every further operation sequence; and every further `updatePerformance` call
on that node reverts — with `AlreadyTerminated` whenever the caller passes
the authorization check. -/
theorem c4_terminated_absorbing (s : NFTState) (hr : ReachableNFT s) (id : Nat)
    (h : (s.nodeRights id).status = .TERMINATED) :
    (s.nodeRights id).stakedDPN = 0 ∧
    (∀ ops, ((stepsNFT ops s).nodeRights id).status = .TERMINATED ∧
            ((stepsNFT ops s).nodeRights id).stakedDPN = 0) ∧
    (∀ sender now up score,
      (∃ e, execNFT (.updatePerf sender now id up score) s = .error e) ∧
      ((sender = s.contractOwner ∨ sender = s.participationContract) →
        execNFT (.updatePerf sender now id up score) s = .error .AlreadyTerminated)) := by
  have hInv := GInv_reachableP s hr
  obtain ⟨h1, h2, h3, h4, h5⟩ := hInv
  refine ⟨h5 id h, ?_, ?_⟩
  · intro ops
    obtain ⟨hInv', hterm'⟩ := terminated_steps ops s ⟨h1, h2, h3, h4, h5⟩ id h
    exact ⟨hterm', hInv'.2.2.2.2 id hterm'⟩
  · intro sender now up score
    have hminted : s.tokenOwner id ≠ 0 := by
      have hlt : id < s.tokenIdCounter := by
        by_contra hge
        rw [h3 id (by omega)] at h
        simp [emptyNode] at h
      exact h2 id hlt
    constructor
    · by_cases hauth : sender = s.contractOwner ∨ sender = s.participationContract
      · exact ⟨.AlreadyTerminated, by simp [execNFT, updatePerformance, hminted, hauth, h]⟩
      · exact ⟨.Unauthorized, by simp [execNFT, updatePerformance, hminted, hauth]⟩
    · intro hauth
      simp [execNFT, updatePerformance, hminted, hauth, h]

/-- Witness for C4 at the concrete terminated state: stake is zero, a later
report leaves it TERMINATED, and a direct authorized report reverts with
AlreadyTerminated. -/
theorem c4_terminated_absorbing_witness :
    (c4State.nodeRights 0).stakedDPN = 0 ∧
    ((stepsNFT [.updatePerf 1 20 0 0 9500] c4State).nodeRights 0).status = .TERMINATED ∧
    execNFT (.updatePerf 1 20 0 0 9500) c4State = .error .AlreadyTerminated := by
  have h := c4_terminated_absorbing c4State
    (ReachableP.step _ (.updatePerf 1 10 0 0 1000)
      (ReachableP.step _ (.mint 2 1500000000000000000 0 .STORAGE 1000000000000000000000 "")
        (ReachableP.init 1) trivial) trivial)
    0 (by decide)
  exact ⟨h.1, (h.2.1 [.updatePerf 1 20 0 0 9500]).1, (h.2.2 1 20 0 9500).2 (by decide)⟩

/-- Claim C8: on every reachable state the owner index is exactly the
inverse of the token-to-owner mapping: an id sits in an address's list iff
that address is the token's (nonzero) owner. -/
theorem c8_owner_index_inverse (s : NFTState) (hr : ReachableNFT s) (a : Address) (id : Nat) :
    id ∈ s.ownerNodes a ↔ (s.tokenOwner id = a ∧ a ≠ 0) := by
  have h4 := (GInv_reachableP s hr).2.2.2.1
  constructor
  · intro hmem
    by_contra hcon
    have hc := h4 a id
    rw [if_neg hcon] at hc
    exact absurd (List.count_pos_iff.mpr hmem) (by omega)
  · intro hcond
    have hc := h4 a id
    rw [if_pos hcond] at hc
    exact List.count_pos_iff.mp (by omega)

/-- Witness for C8 after a concrete transfer: token 0 now sits in owner 3's
index and no longer in owner 2's. -/
theorem c8_owner_index_inverse_witness :
    (0 ∈ c8State.ownerNodes 3) ∧ ¬ (0 ∈ c8State.ownerNodes 2) := by
  have hr : ReachableNFT c8State :=
    ReachableP.step _ (.transfer 2 2 3 0)
      (ReachableP.step _ (.mint 2 2000000000000000000 0 .STORAGE 1000000000000000000000 "")
        (ReachableP.init 1) trivial) trivial
  constructor
  · exact (c8_owner_index_inverse c8State hr 3 0).mpr ⟨by decide, by decide⟩
  · intro hmem
    have := (c8_owner_index_inverse c8State hr 2 0).mp hmem
    exact absurd this.1 (by decide)

/-- Witness for C6 at the c3 state: unminted id 5 → NotFound; non-owner
caller → NotOwner; an owner upgrade attaching 0.5 ETH boosts the score by
`(0.5 ETH · 100) / 2 ETH = 25` points to 10025. -/
theorem c6_upgradeNode_spec_witness :
    execNFT (.upgrade 2 0 5 0) c3State = .error .NotFound ∧
    execNFT (.upgrade 3 0 0 0) c3State = .error .NotOwner ∧
    ((stepNFT (.upgrade 2 500000000000000000 0 0) c3State).nodeRights 0).performanceScore
      = 10025 := by
  refine ⟨(c6_upgradeNode_spec c3State 2 0 5 0).1 (by decide),
          (c6_upgradeNode_spec c3State 3 0 0 0).2.1 (by decide) (by decide), ?_⟩
  have h := (c6_upgradeNode_spec c3State 2 500000000000000000 0 0).2.2.2
    (by decide) (by decide) (by decide) (by decide)
  rw [h.2.2.2.2]
  decide

/-- Witness for C7: Scenario E — an upgrade by non-owner 3 violates the
precondition, reverts, changes nothing and emits nothing. -/
theorem c7_atomic_rejection_witness :
    ¬ nftPre (.upgrade 3 0 0 0) c3State ∧
    stepNFT (.upgrade 3 0 0 0) c3State = c3State ∧
    nftEvents (.upgrade 3 0 0 0) c3State = [] := by
  have hnp : ¬ nftPre (.upgrade 3 0 0 0) c3State :=
    fun hp => absurd hp.2.1 (by decide)
  exact ⟨hnp, (c7_atomic_rejection.1 _ _ hnp).2.1, (c7_atomic_rejection.1 _ _ hnp).2.2⟩

/-- Witness for C9: a non-owner claim reverts Unauthorized; the owner's
claim emits the accumulated 15 and zeroes it; an immediate second claim
emits 0. -/
theorem c9_claimReward_spec_witness :
    execPart (.claim 8 2 0) c9Part = .error .Unauthorized ∧
    partEvents (.claim 7 2 0) c9Part = [Event.RewardClaimed 0 7 15 2] ∧
    ((stepPart (.claim 7 2 0) c9Part).stats 0).earned = 0 ∧
    partEvents (.claim 7 3 0) (stepPart (.claim 7 2 0) c9Part)
      = [Event.RewardClaimed 0 7 0 3] := by
  have h := c9_claimReward_spec c9Part 7 2 3 0
  exact ⟨(c9_claimReward_spec c9Part 8 2 3 0).1 (by decide),
    (h.2 (by decide)).1, (h.2 (by decide)).2.1, (h.2 (by decide)).2.2⟩

/-- Witness for C10 on the freshly deployed ledger: node id 5 was never
registered (nextId = 0), yet uptime recording and staking both succeed and
accumulate. -/
theorem c10_open_participation_witness :
    initPartState.nextId ≤ 5 ∧
    ((stepPart (.recordUp 9 3 5 15) initPartState).stats 5).uptime = 15 ∧
    ((stepPart (.recordUp 9 3 5 15) initPartState).stats 5).earned = 15 ∧
    (stepPart (.stake 9 4 5 100) initPartState).nodeStakes 5 = 100 := by
  have h := c10_open_participation initPartState 9 9 3 4 5 15 100
  exact ⟨by decide, h.2.1, h.2.2.1, (h.2.2.2.2 (by decide)).2⟩

end DePIN
